import Mathlib

/-!
Verification of the ETL techniques notebook (generators, chaining, batching,
depth-first tree traversal, LRU caching) against its natural-language
specification.  Python code is shallowly embedded: generators become Lean
lists (the sequence of yielded values), dicts become ordered association
lists, a raised exception becomes an explicit error value, and the unbounded
recursion of the tree traversal is driven by an explicit fuel argument
standing for the Python recursion limit.
-/

namespace PyconEtl

/-! ## Data model: scalars, values, nodes (nested JSON-like documents) -/

/-- A Python scalar as it occurs in the tree documents of the notebook:
an integer or a string.  The traversal classifies a value as scalar exactly
when it is neither a dict nor a list. -/
inductive Scalar where
  | int (n : Int)
  | str (s : String)

/-- A value inside a Node: a scalar, a nested dict (Node) or a list of
values.  Dicts are embedded as ordered association lists, matching the
insertion order the notebook relies on when iterating items. -/
inductive Value where
  | scalar (s : Scalar)
  | vDict (entries : List (String × Value))
  | vList (elems : List Value)

/-- A Node is a mapping from string keys to values (one level of the nested
document). -/
abbrev Node := List (String × Value)

/-- Embeds the Python test applied by the item producer:
not isinstance(v, (dict, list)). -/
def Value.isScalar : Value → Bool
  | Value.scalar _ => true
  | Value.vDict _ => false
  | Value.vList _ => false

/-- Python truthiness of a value: zero, the empty string, the empty dict and
the empty list are falsy, everything else is truthy. -/
def Value.truthy : Value → Bool
  | Value.scalar (Scalar.int n) => decide (n ≠ 0)
  | Value.scalar (Scalar.str s) => decide (s ≠ "")
  | Value.vDict es => !es.isEmpty
  | Value.vList xs => !xs.isEmpty

/-- dict.get(key): the value stored under the first matching key, or none
when the key is absent (Python returns None). -/
def nodeGet (node : Node) (k : String) : Option Value :=
  match node with
  | [] => none
  | (k0, v) :: rest => if k0 = k then some v else nodeGet rest k

/-- Python truthiness of a dict.get result: None is falsy, otherwise the
truthiness of the stored value. -/
def optTruthy : Option Value → Bool
  | none => false
  | some v => v.truthy

/-- The path join used by the item producer: the dot-join of the path
components. -/
def joinDot (segs : List String) : String :=
  String.intercalate "." segs

/-- The classification record returned by the classification lookup; the
traversal reads its answer_type field. -/
structure NodeInfo where
  answer_type : String

/-- An emitted Event: the joined path string together with the answer type
and the rendered value of the yielded dict. -/
abbrev Event := String × String × String

/-! ## Generators as lists: the squares examples -/

/-- The body of squares_as_list: while x is at most max_n, append x * x and
increment x.  Embedded with the loop condition kept literally; the
termination measure counts the remaining iterations. -/
def squaresListFrom (x max_n : Nat) : List Nat :=
  if x ≤ max_n then (x * x) :: squaresListFrom (x + 1) max_n else []
termination_by max_n + 1 - x
decreasing_by omega

/-- squares_as_list(max_n): produces the list of squares of 1..max_n. -/
def squares_as_list (max_n : Nat) : List Nat :=
  squaresListFrom 1 max_n

/-- The body of squares_as_generator: while x is strictly below max_n, yield
x * x and increment x.  Note the strict comparison, unlike the list
version. -/
def squaresGenFrom (x max_n : Nat) : List Nat :=
  if x < max_n then (x * x) :: squaresGenFrom (x + 1) max_n else []
termination_by max_n - x
decreasing_by omega

/-- squares_as_generator(max_n), collected to a list: the sequence of values
the generator yields. -/
def squares_as_generator (max_n : Nat) : List Nat :=
  squaresGenFrom 1 max_n

/-! ## Tree Transformer: item producer, child producer, recursive traversal -/

/-- my_gen_items(node, path): for every key/value pair of the node whose
value is a scalar, compute path_str as the dot-join of path plus the key and,
when the classification lookup succeeds, yield the event made of path_str,
the answer_type of the classification record, and the rendered value.
The bodies elided in the source (node_info = ... and str_value = ...) are
modelled from the spec as the pluggable arguments lookup (the classification
lookup for a path, returning none when it fails, which silently skips the
entry) and render (the string rendering of a scalar value). -/
def my_gen_items (lookup : String → Option NodeInfo) (render : Value → String) :
    Node → List String → List Event
  | [], _ => []
  | (k, v) :: rest, path =>
    (if v.isScalar then
      let path_str := joinDot (path ++ [k])
      match lookup path_str with
      | some info => [(path_str, info.answer_type, render v)]
      | none => []
    else []) ++ my_gen_items lookup render rest path

/-- my_gen_children(node, path): when the node carries a truthy slug and a
truthy (non-empty) children list, yield, for every child dict carrying its
own non-empty slug string, the pair of path extended with the child slug and
the child node; otherwise yield nothing.  The source cell declares this
function without its (node, path) parameters although its body reads both;
the parameters are restored here so the body can be given a meaning.  Slugs
are path segments and therefore strings, and children are Nodes, per the
data model of the spec. -/
def my_gen_children (node : Node) (path : List String) : List (List String × Node) :=
  let node_slug := nodeGet node "slug"
  let children := nodeGet node "children"
  if optTruthy node_slug && optTruthy children then
    match children with
    | some (Value.vList cs) =>
      cs.filterMap (fun child =>
        match child with
        | Value.vDict es =>
          (match nodeGet es "slug" with
           | some (Value.scalar (Scalar.str s)) =>
             if s = "" then none else some (path ++ [s], es)
           | _ => none)
        | _ => none)
    | _ => []
  else []

/-- A value passed in a callable position of the traversal: either a real
function producing a generator, or an already-created generator object
(embedded as the list of values it yields).  The source recursion passes the
generator objects gen_items and gen_children where the functions
f_gen_items and f_gen_children are expected, which this type makes
representable. -/
inductive GenFun (α : Type) where
  | func (f : Node → List String → List α)
  | genObj (yielded : List α)

/-- Calling a GenFun: applying a function succeeds; applying a generator
object raises TypeError, as in Python. -/
def callGen {α : Type} : GenFun α → Node → List String → Except String (List α)
  | GenFun.func f, node, path => Except.ok (f node path)
  | GenFun.genObj _, _, _ =>
    Except.error "TypeError: generator object is not callable"

/-- The observable run of a generator that may raise: the events it yielded
before finishing, and the exception it raised, if any. -/
structure Trav where
  events : List Event
  error : Option String
deriving DecidableEq, Repr

/-- Concatenates the runs of the child subtrees in order, stopping at the
first run that raised: later children are never visited once an exception
propagates out of the for loop over children. -/
def travFlatten : List Trav → Trav
  | [] => ⟨[], none⟩
  | r :: rest =>
    match r.error with
    | some e => ⟨r.events, some e⟩
    | none =>
      let r2 := travFlatten rest
      ⟨r.events ++ r2.events, r2.error⟩

/-- _recursive_map_nested(node, path, f_gen_items, f_gen_children), embedded
faithfully to the source cell: an empty node yields nothing; otherwise the
node's own items are yielded first, then the children are enumerated and,
for each child, the traversal recurses -- passing down the generator objects
gen_items and gen_children, exactly as the source does, rather than the
functions f_gen_items and f_gen_children.  The fuel argument stands for the
Python recursion limit; exhausting it is RecursionError. -/
def recursive_map_nested_src :
    Nat → GenFun Event → GenFun (List String × Node) → Node → List String → Trav
  | 0, _, _, _, _ => ⟨[], some "RecursionError: maximum recursion depth exceeded"⟩
  | fuel + 1, f_gen_items, f_gen_children, node, path =>
    if node.isEmpty then ⟨[], none⟩
    else
      match callGen f_gen_items node path with
      | Except.error e => ⟨[], some e⟩
      | Except.ok gen_items =>
        match callGen f_gen_children node path with
        | Except.error e => ⟨gen_items, some e⟩
        | Except.ok gen_children =>
          let rest := travFlatten (gen_children.map (fun cp_cn =>
            recursive_map_nested_src fuel (GenFun.genObj gen_items)
              (GenFun.genObj gen_children) cp_cn.2 cp_cn.1))
          ⟨gen_items ++ rest.events, rest.error⟩

/-! ## The simplistic ETL: extractor, transformer, loader -/

/-- SOURCE_DATA of the notebook: the list standing for database rows. -/
def SOURCE_DATA : List Int := [1, 2, 3, 4, 5, 6, 7, 8, 9, 10, 12, 13, 14]

/-- extractor(source_data): yields every item of the source in order. -/
def extractor (source_data : List Int) : List Int :=
  source_data

/-- transformer(iter_extractor): yields, for every extracted item, the tuple
of the item and its square. -/
def transformer (iter_extractor : List Int) : List (Int × Int) :=
  iter_extractor.map (fun item => (item, item * item))

/-- Assignment db[k] = v on the ordered destination dictionary: an existing
key is updated in place, a new key is appended. -/
def dbInsert (db : List (String × Int)) (k : String) (v : Int) : List (String × Int) :=
  if db.any (fun e => e.1 = k) then
    db.map (fun e => if e.1 = k then (k, v) else e)
  else
    db ++ [(k, v)]

/-- loader(iter_transformer, db): inserts each transformed tuple into the
destination dictionary under the stringified first component.  The source
loader returns nothing (its return value is None, not a count). -/
def loader (iter_transformer : List (Int × Int)) (db : List (String × Int)) :
    List (String × Int) :=
  iter_transformer.foldl (fun db item => dbInsert db (toString item.1) item.2) db

/-! ## Batcher: chunking a sequence -/

/-- Recursion core of the batcher, structural on a fuel that starts at the
length of the list: the first chunk is the first k elements, the rest is the
chunking of what remains. -/
def chunkedAux {α : Type} (k : Nat) : Nat → List α → List (List α)
  | _, [] => []
  | 0, _ :: _ => []
  | fuel + 1, x :: xs => (x :: xs.take (k - 1)) :: chunkedAux k fuel (xs.drop (k - 1))

/-- more_itertools.chunked(iterable, k), collected to a list of chunks.  The
library is an external dependency of the repository, so its documented
semantics are embedded: the input is consumed in order into lists of k
items, the final list possibly shorter.  Meaningful for chunk size k of at
least 1, as the spec requires. -/
def chunked {α : Type} (k : Nat) (l : List α) : List (List α) :=
  chunkedAux k l.length l

/-- Modelled from the spec: the repository's chunk-consuming Loader
(section 4.4 of the spec; the profiling notebook shows the workshop loaders
returning num_events) is not part of the extracted sources, whose simplistic
loader is per-item and returns no count.  It persists each chunk as one bulk
write into the destination dictionary and returns the total count of
persisted events. -/
def chunk_loader (chunks : List (List (Int × Int))) (db : List (String × Int)) :
    List (String × Int) × Nat :=
  chunks.foldl (fun acc chunk => (loader chunk acc.1, acc.2 + chunk.length)) (db, 0)

/-! ## Bounded Cache (LRU) -/

/-- The outcome of one cache call: a hit served from the store, a miss that
invoked the computation and stored its result, or a propagated error (from
key hashing or from the computation itself). -/
inductive Outcome (ν : Type) where
  | hit (v : ν)
  | miss (v : ν)
  | err (e : String)
deriving DecidableEq, Repr

/-- Modelled from the spec: the state of the Bounded Cache of section 4.5
(functools.lru_cache is an external dependency whose implementation is not
part of the repository).  Entries are kept most-recently-used first; hits
and misses are the observable stats counters; calls counts the invocations
of the underlying computation. -/
structure LruCache (κ ν : Type) where
  capacity : Nat
  entries : List (κ × ν)
  hits : Nat
  misses : Nat
  calls : Nat
deriving DecidableEq, Repr

/-- The stored value of the first entry with the given key, if any. -/
def lookupEntry {κ ν : Type} [DecidableEq κ] (k : κ) : List (κ × ν) → Option ν
  | [] => none
  | (k0, v) :: rest => if k0 = k then some v else lookupEntry k rest

/-- Removes the first entry with the given key. -/
def removeEntry {κ ν : Type} [DecidableEq κ] (k : κ) : List (κ × ν) → List (κ × ν)
  | [] => []
  | (k0, v) :: rest => if k0 = k then rest else (k0, v) :: removeEntry k rest

/-- Modelled from the spec: get_or_compute(args) of the Bounded Cache,
section 4.5.  The key is hashed first; a hashing error propagates with the
store untouched.  A present key is a hit: it is moved to the front
(most-recently-used) and its stored value returned without invoking the
computation.  Otherwise the computation runs; its error propagates with the
store untouched, and its result is inserted at the front, evicting the
least-recently-used entry (the back) when the cache exceeds capacity. -/
def get_or_compute {κ ν : Type} [DecidableEq κ]
    (hashKey : κ → Except String Nat) (compute : κ → Except String ν)
    (c : LruCache κ ν) (k : κ) : Outcome ν × LruCache κ ν :=
  match hashKey k with
  | Except.error e => (Outcome.err e, c)
  | Except.ok _ =>
    match lookupEntry k c.entries with
    | some v =>
      (Outcome.hit v,
       { c with entries := (k, v) :: removeEntry k c.entries, hits := c.hits + 1 })
    | none =>
      match compute k with
      | Except.error e => (Outcome.err e, { c with calls := c.calls + 1 })
      | Except.ok v =>
        (Outcome.miss v,
         { c with entries := ((k, v) :: c.entries).take c.capacity,
                  misses := c.misses + 1, calls := c.calls + 1 })

/-- A fresh cache of the given capacity. -/
def freshCache (κ ν : Type) (cap : Nat) : LruCache κ ν :=
  { capacity := cap, entries := [], hits := 0, misses := 0, calls := 0 }

/-- Hashing a tuple of integers always succeeds; the hash value itself is
irrelevant to the model, which looks keys up by equality. -/
def intPairHash : Int × Int → Except String Nat :=
  fun _ => Except.ok 0

/-- The underlying computation of cached_pow(x, n): x ** n.  The exponent is
taken non-negative, as in every call of the notebook. -/
def powCompute : Int × Int → Except String Nat :=
  fun k => Except.ok (k.1.toNat ^ k.2.toNat)

/-- One cached_pow call against a cache state, at the capacity fixed in that
state. -/
def lruStep (c : LruCache (Int × Int) Nat) (k : Int × Int) :
    Outcome Nat × LruCache (Int × Int) Nat :=
  get_or_compute intPairHash powCompute c k

/-! ## Sessions and hashability -/

/-- CrankySession: a session handle over the contrived destination database
whose __hash__ raises. -/
structure CrankySession where
  db : List (String × Int)
deriving DecidableEq, Repr

/-- session.query(idx): reads the destination dictionary, raising KeyError
when the key is absent. -/
def CrankySession.query (s : CrankySession) (idx : String) : Except String Int :=
  match lookupEntry idx s.db with
  | some v => Except.ok v
  | none => Except.error "KeyError"

/-- Hashing the (session, idx) key tuple of broken_session_lookup: hashing
the tuple hashes the session, whose __hash__ raises. -/
def crankyPairHash : CrankySession × String → Except String Nat :=
  fun _ => Except.error "RuntimeError: WATCH IT BUDDY! I am not hashable!"

/-- The underlying computation of broken_session_lookup(session, idx):
session.query(idx). -/
def brokenLookupCompute : CrankySession × String → Except String Int :=
  fun k => k.1.query k.2

/-- Strings are hashable: hashing the (idx,) key of the partially applied
lookup always succeeds. -/
def stringHash : String → Except String Nat :=
  fun _ => Except.ok 0

/-- The destination database as populated by the simplistic ETL of the
notebook, which the contrived session queries. -/
def demoDb : List (String × Int) :=
  loader (transformer (extractor SOURCE_DATA)) []

/-- The session built over the destination database. -/
def demoSession : CrankySession :=
  ⟨demoDb⟩

/-- functools.partial(raw_session_lookup, session): the session argument is
frozen into the function, so the cache key is the remaining idx argument
only. -/
def partialSessionLookup : String → Except String Int :=
  fun idx => demoSession.query idx

/-! ## Concrete example data for the traversal claims -/

/-- The child node of the pre-order example: slug c, one scalar item x = 3. -/
def exChild : Node :=
  [("slug", Value.scalar (Scalar.str "c")),
   ("x", Value.scalar (Scalar.int 3))]

/-- The root node of the pre-order example: own scalar items a = 1 and
b = 2, a slug, and one child with slug c and item x = 3. -/
def exRoot : Node :=
  [("a", Value.scalar (Scalar.int 1)),
   ("b", Value.scalar (Scalar.int 2)),
   ("slug", Value.scalar (Scalar.str "r")),
   ("children", Value.vList [Value.vDict exChild])]

/-- The classification lookup of the example: defined exactly on the item
paths a, b and c.x, so that structural entries such as the slugs are
silently skipped. -/
def exLookup : String → Option NodeInfo := fun s =>
  if s = "a" then some ⟨"number"⟩
  else if s = "b" then some ⟨"number"⟩
  else if s = "c.x" then some ⟨"number"⟩
  else none

/-- The scalar rendering of the example: decimal for integers, identity for
strings. -/
def exRender : Value → String
  | Value.scalar (Scalar.int n) => toString n
  | Value.scalar (Scalar.str s) => s
  | _ => ""

/-- A parent node whose children list holds one child without a slug between
two children with slugs. -/
def exParent : Node :=
  [("slug", Value.scalar (Scalar.str "p")),
   ("children",
    Value.vList
      [Value.vDict [("slug", Value.scalar (Scalar.str "c1")),
                    ("y", Value.scalar (Scalar.int 4))],
       Value.vDict [("y", Value.scalar (Scalar.int 5))],
       Value.vDict [("slug", Value.scalar (Scalar.str "c3"))]])]

/-- A node carrying children but no slug. -/
def exNoSlug : Node :=
  [("children", Value.vList [Value.vDict exChild])]

/-- A node carrying a slug but no children key. -/
def exNoChildren : Node :=
  [("slug", Value.scalar (Scalar.str "p")),
   ("a", Value.scalar (Scalar.int 1))]

/-- A node carrying a slug and an empty children list. -/
def exEmptyChildren : Node :=
  [("slug", Value.scalar (Scalar.str "p")),
   ("children", Value.vList [])]

/-! ## The cached_pow eviction scenario at capacity 2 -/

/-- State and outcome after the first call, on the key (2, 3). -/
def lruS1 : Outcome Nat × LruCache (Int × Int) Nat :=
  lruStep (freshCache (Int × Int) Nat 2) (2, 3)

/-- After the second call, on the key (2, 4). -/
def lruS2 : Outcome Nat × LruCache (Int × Int) Nat :=
  lruStep lruS1.2 (2, 4)

/-- After the third call, again on the key (2, 3). -/
def lruS3 : Outcome Nat × LruCache (Int × Int) Nat :=
  lruStep lruS2.2 (2, 3)

/-- After the fourth call, on the key (2, 5), which forces an eviction. -/
def lruS4 : Outcome Nat × LruCache (Int × Int) Nat :=
  lruStep lruS3.2 (2, 5)

/-! ## The partially applied cached session lookup call sequence -/

/-- First call of cached_session_lookup, on idx 1. -/
def scs1 : Outcome Int × LruCache String Int :=
  get_or_compute stringHash partialSessionLookup (freshCache String Int 4) "1"

/-- Second call, on idx 2. -/
def scs2 : Outcome Int × LruCache String Int :=
  get_or_compute stringHash partialSessionLookup scs1.2 "2"

/-- Third call, again on idx 2. -/
def scs3 : Outcome Int × LruCache String Int :=
  get_or_compute stringHash partialSessionLookup scs2.2 "2"

/-- Fourth call, again on idx 1. -/
def scs4 : Outcome Int × LruCache String Int :=
  get_or_compute stringHash partialSessionLookup scs3.2 "1"

/-- Fifth call, again on idx 1. -/
def scs5 : Outcome Int × LruCache String Int :=
  get_or_compute stringHash partialSessionLookup scs4.2 "1"

/-- Hashing an integer key always succeeds. -/
def natHash : Nat → Except String Nat :=
  fun _ => Except.ok 0

/-- A computation that fails on the argument 0 and succeeds elsewhere, used
to exercise the failure semantics of the cache. -/
def failCompute : Nat → Except String Nat :=
  fun k => if k = 0 then Except.error "boom" else Except.ok (k * k)

/-! ## Helper lemmas about the batcher core -/

theorem chunkedAux_nil {α : Type} (k fuel : Nat) :
    chunkedAux k fuel ([] : List α) = [] := by
  cases fuel <;> rfl

theorem chunkedAux_join {α : Type} (k : Nat) :
    ∀ (fuel : Nat) (l : List α), l.length ≤ fuel → (chunkedAux k fuel l).flatten = l := by
  intro fuel
  induction fuel with
  | zero =>
    intro l hl
    cases l with
    | nil => simp [chunkedAux_nil]
    | cons x xs => simp at hl
  | succ fuel ih =>
    intro l hl
    cases l with
    | nil => simp [chunkedAux_nil]
    | cons x xs =>
      have hlen : (xs.drop (k - 1)).length ≤ fuel := by
        simp only [List.length_drop]
        simp only [List.length_cons] at hl
        omega
      simp only [chunkedAux, List.flatten_cons, ih _ hlen, List.cons_append]
      rw [List.take_append_drop]

theorem chunkedAux_length {α : Type} (k : Nat) (hk : 1 ≤ k) :
    ∀ (fuel : Nat) (l : List α), l.length ≤ fuel →
      (chunkedAux k fuel l).length = (l.length + k - 1) / k := by
  intro fuel
  induction fuel with
  | zero =>
    intro l hl
    cases l with
    | nil =>
      rw [chunkedAux_nil]
      simp
      exact (Nat.div_eq_of_lt (by omega)).symm
    | cons x xs => simp at hl
  | succ fuel ih =>
    intro l hl
    cases l with
    | nil =>
      rw [chunkedAux_nil]
      simp
      exact (Nat.div_eq_of_lt (by omega)).symm
    | cons x xs =>
      have hlen : (xs.drop (k - 1)).length ≤ fuel := by
        simp only [List.length_drop]
        simp only [List.length_cons] at hl
        omega
      simp only [chunkedAux, List.length_cons, ih _ hlen, List.length_drop]
      rcases Nat.lt_or_ge xs.length k with hm | hm
      · have h1 : xs.length - (k - 1) + k - 1 = k - 1 := by omega
        have h2 : xs.length + 1 + k - 1 = xs.length + k := by omega
        rw [h1, h2, Nat.div_eq_of_lt (by omega : k - 1 < k),
          Nat.add_div_right _ (by omega : 0 < k), Nat.div_eq_of_lt hm]
      · have h1 : xs.length - (k - 1) + k - 1 = xs.length := by omega
        have h2 : xs.length + 1 + k - 1 = xs.length + k := by omega
        rw [h1, h2, Nat.add_div_right _ (by omega : 0 < k)]

theorem chunkedAux_mem_length {α : Type} (k : Nat) (hk : 1 ≤ k) :
    ∀ (fuel : Nat) (l : List α) (c : List α), c ∈ chunkedAux k fuel l →
      1 ≤ c.length ∧ c.length ≤ k := by
  intro fuel
  induction fuel with
  | zero =>
    intro l c hc
    cases l <;> simp [chunkedAux] at hc
  | succ fuel ih =>
    intro l c hc
    cases l with
    | nil => simp [chunkedAux] at hc
    | cons x xs =>
      simp only [chunkedAux] at hc
      rcases List.mem_cons.mp hc with hceq | hcmem
      · subst hceq
        simp [List.length_take]
        omega
      · exact ih _ c hcmem

theorem chunkedAux_dropLast {α : Type} (k : Nat) (hk : 1 ≤ k) :
    ∀ (fuel : Nat) (l : List α) (c : List α), c ∈ (chunkedAux k fuel l).dropLast →
      c.length = k := by
  intro fuel
  induction fuel with
  | zero =>
    intro l c hc
    cases l <;> simp [chunkedAux] at hc
  | succ fuel ih =>
    intro l c hc
    cases l with
    | nil => simp [chunkedAux] at hc
    | cons x xs =>
      simp only [chunkedAux] at hc
      cases hrest : chunkedAux k fuel (xs.drop (k - 1)) with
      | nil => rw [hrest] at hc; simp at hc
      | cons r rs =>
        rw [hrest, List.dropLast_cons₂] at hc
        rcases List.mem_cons.mp hc with hceq | hcmem
        · subst hceq
          have hd : xs.drop (k - 1) ≠ [] := by
            intro h0
            rw [h0, chunkedAux_nil] at hrest
            exact (List.cons_ne_nil r rs) hrest.symm
          have hlt : k - 1 < xs.length := by
            by_contra hle
            push_neg at hle
            exact hd (List.drop_eq_nil_of_le hle)
          simp [List.length_take]
          omega
        · exact ih _ c (by rw [hrest]; exact hcmem)

/-! ## Helper lemmas about the item producer -/

theorem gen_items_length (lookup : String → Option NodeInfo) (render : Value → String)
    (node : Node) (path : List String) :
    (my_gen_items lookup render node path).length =
      node.countP (fun kv => kv.2.isScalar && (lookup (joinDot (path ++ [kv.1]))).isSome) := by
  induction node with
  | nil => rfl
  | cons kv rest ih =>
    obtain ⟨k, v⟩ := kv
    cases hv : v.isScalar with
    | false =>
      simp only [my_gen_items, List.length_append, ih, List.countP_cons]
      simp [hv]
    | true =>
      cases hl : lookup (joinDot (path ++ [k])) with
      | none =>
        simp only [my_gen_items, List.length_append, ih, List.countP_cons]
        simp [hv, hl]
      | some info =>
        simp only [my_gen_items, List.length_append, ih, List.countP_cons]
        simp [hv, hl]
        omega

theorem gen_items_mem_of (lookup : String → Option NodeInfo) (render : Value → String)
    (node : Node) (path : List String) :
    ∀ (k : String) (v : Value) (info : NodeInfo), (k, v) ∈ node → v.isScalar = true →
      lookup (joinDot (path ++ [k])) = some info →
      (joinDot (path ++ [k]), info.answer_type, render v) ∈
        my_gen_items lookup render node path := by
  induction node with
  | nil =>
    intro k v info hmem
    exact absurd hmem (List.not_mem_nil _)
  | cons kv rest ih =>
    intro k v info hmem hv hl
    obtain ⟨k0, v0⟩ := kv
    simp only [my_gen_items]
    rcases List.mem_cons.mp hmem with heq | hmem2
    · cases heq
      rw [hv]
      simp [hl]
    · exact List.mem_append_right _ (ih k v info hmem2 hv hl)

theorem gen_items_mem (lookup : String → Option NodeInfo) (render : Value → String)
    (node : Node) (path : List String) :
    ∀ ev ∈ my_gen_items lookup render node path,
      ∃ (k : String) (v : Value) (info : NodeInfo), (k, v) ∈ node ∧ v.isScalar = true ∧
        lookup (joinDot (path ++ [k])) = some info ∧
        ev = (joinDot (path ++ [k]), info.answer_type, render v) := by
  induction node with
  | nil =>
    intro ev hev
    simp [my_gen_items] at hev
  | cons kv rest ih =>
    intro ev hev
    obtain ⟨k0, v0⟩ := kv
    simp only [my_gen_items] at hev
    rcases List.mem_append.mp hev with hleft | hright
    · cases hv : v0.isScalar with
      | false =>
        rw [hv] at hleft
        simp at hleft
      | true =>
        rw [hv] at hleft
        cases hl : lookup (joinDot (path ++ [k0])) with
        | none =>
          rw [hl] at hleft
          simp at hleft
        | some info =>
          rw [hl] at hleft
          simp at hleft
          exact ⟨k0, v0, info, List.mem_cons_self _ _, hv, hl, hleft⟩
    · obtain ⟨k, v, info, hm, hs, hlk, hev2⟩ := ih ev hright
      exact ⟨k, v, info, List.mem_cons_of_mem _ hm, hs, hlk, hev2⟩

/-! ## Claim theorems -/

/-- C1: the claim expects the traversal, started at the example root with the
empty path, to emit the events of paths .a, .b, .c.x in pre-order.  The
source recursion instead passes the already-consumed generator objects where
the behaviour functions are expected, so after the root's own items (whose
joined paths are a and b, without a leading dot) the visit of the non-empty
child raises TypeError and no descendant event is ever emitted. -/
theorem recursion_slip_typeerror :
    recursive_map_nested_src 10 (GenFun.func (my_gen_items exLookup exRender))
        (GenFun.func my_gen_children) exRoot [] =
      ⟨[("a", "number", "1"), ("b", "number", "2")],
       some "TypeError: generator object is not callable"⟩ := by
  rfl

/-- C2: for every input of length n and chunk size k of at least 1, the
batcher yields exactly ceiling(n/k) chunks, written (n + k - 1) / k in
natural division, hence zero chunks for empty input and never an empty
chunk; every chunk has length between 1 and k; every chunk except possibly
the last has length exactly k; and the concatenation of the chunks in order
is the input. -/
theorem batcher_chunks_spec {α : Type} (k : Nat) (l : List α) (hk : 1 ≤ k) :
    (chunked k l).length = (l.length + k - 1) / k ∧
    (l = [] → chunked k l = []) ∧
    (∀ c ∈ chunked k l, 1 ≤ c.length ∧ c.length ≤ k) ∧
    (∀ c ∈ (chunked k l).dropLast, c.length = k) ∧
    (chunked k l).flatten = l := by
  refine ⟨chunkedAux_length k hk l.length l le_rfl, ?_, ?_, ?_,
    chunkedAux_join k l.length l le_rfl⟩
  · intro h
    subst h
    rfl
  · intro c hc
    exact chunkedAux_mem_length k hk l.length l c hc
  · intro c hc
    exact chunkedAux_dropLast k hk l.length l c hc

/-- Witness for C2 at chunk size 3 over a concrete input of length 7. -/
theorem batcher_chunks_spec_witness :
    1 ≤ 3 ∧
    ((chunked 3 [10, 20, 30, 40, 50, 60, 70]).length =
       ([10, 20, 30, 40, 50, 60, 70].length + 3 - 1) / 3 ∧
     ([10, 20, 30, 40, 50, 60, 70] = ([] : List Nat) →
       chunked 3 [10, 20, 30, 40, 50, 60, 70] = []) ∧
     (∀ c ∈ chunked 3 [10, 20, 30, 40, 50, 60, 70], 1 ≤ c.length ∧ c.length ≤ 3) ∧
     (∀ c ∈ (chunked 3 [10, 20, 30, 40, 50, 60, 70]).dropLast, c.length = 3) ∧
     (chunked 3 [10, 20, 30, 40, 50, 60, 70]).flatten = [10, 20, 30, 40, 50, 60, 70]) :=
  ⟨by decide, batcher_chunks_spec 3 [10, 20, 30, 40, 50, 60, 70] (by decide)⟩

/-- C3: at capacity 2 from a fresh state, the calls on (2,3), (2,4), (2,3),
(2,5) produce miss, miss, hit, miss; the fourth call evicts exactly the
least-recently-used entry (2,4), leaving (2,5) and (2,3) stored; from that
state a call on (2,4) is a miss that re-invokes the computation, while a
call on (2,3) is a hit. -/
theorem lru_capacity_two_eviction_scenario :
    lruS1.1 = Outcome.miss 8 ∧
    lruS2.1 = Outcome.miss 16 ∧
    lruS3.1 = Outcome.hit 8 ∧
    lruS4.1 = Outcome.miss 32 ∧
    lruS4.2.entries = [((2, 5), 32), ((2, 3), 8)] ∧
    lookupEntry (2, 4) lruS4.2.entries = none ∧
    (lruStep lruS4.2 (2, 4)).1 = Outcome.miss 16 ∧
    (lruStep lruS4.2 (2, 4)).2.calls = lruS4.2.calls + 1 ∧
    (lruStep lruS4.2 (2, 3)).1 = Outcome.hit 8 := by
  decide

/-- C4: when the underlying computation of an uncached key raises, the error
propagates, nothing is stored (the entry list, hits and misses of the state
are untouched; only the invocation counter moves), and a second call with
the same key re-invokes the computation and propagates the error again
rather than being served as a hit. -/
theorem compute_error_not_cached {κ ν : Type} [DecidableEq κ]
    (hashKey : κ → Except String Nat) (compute : κ → Except String ν)
    (c : LruCache κ ν) (k : κ) (e : String) (h0 : Nat)
    (hh : hashKey k = Except.ok h0)
    (hmem : lookupEntry k c.entries = none)
    (hc : compute k = Except.error e) :
    get_or_compute hashKey compute c k =
      (Outcome.err e, { c with calls := c.calls + 1 }) ∧
    get_or_compute hashKey compute { c with calls := c.calls + 1 } k =
      (Outcome.err e, { c with calls := c.calls + 1 + 1 }) := by
  constructor
  · simp [get_or_compute, hh, hmem, hc]
  · simp [get_or_compute, hh, hmem, hc]

/-- Witness for C4: a concrete failing computation on the key 0 against a
fresh cache of capacity 4. -/
theorem compute_error_not_cached_witness :
    natHash 0 = Except.ok 0 ∧
    lookupEntry 0 (freshCache Nat Nat 4).entries = none ∧
    failCompute 0 = Except.error "boom" ∧
    (get_or_compute natHash failCompute (freshCache Nat Nat 4) 0 =
       (Outcome.err "boom",
        { freshCache Nat Nat 4 with calls := (freshCache Nat Nat 4).calls + 1 }) ∧
     get_or_compute natHash failCompute
         { freshCache Nat Nat 4 with calls := (freshCache Nat Nat 4).calls + 1 } 0 =
       (Outcome.err "boom",
        { freshCache Nat Nat 4 with calls := (freshCache Nat Nat 4).calls + 1 + 1 })) :=
  ⟨rfl, rfl, rfl,
   compute_error_not_cached natHash failCompute (freshCache Nat Nat 4) 0 "boom" 0
     rfl rfl rfl⟩

/-- C5: over the source records 1..10 with the squaring transform and a
batcher of size 3, the chunk-consuming loader receives exactly 4 chunks of
sizes 3, 3, 3, 1 totalling 10 events, returns the count 10, and the
destination holds the ten persisted events in order. -/
theorem pipeline_end_to_end :
    (chunked 3 (transformer (extractor [1, 2, 3, 4, 5, 6, 7, 8, 9, 10]))).length = 4 ∧
    (chunked 3 (transformer (extractor [1, 2, 3, 4, 5, 6, 7, 8, 9, 10]))).map
        List.length = [3, 3, 3, 1] ∧
    ((chunked 3 (transformer (extractor [1, 2, 3, 4, 5, 6, 7, 8, 9, 10]))).map
        List.length).sum = 10 ∧
    (chunk_loader (chunked 3 (transformer (extractor [1, 2, 3, 4, 5, 6, 7, 8, 9, 10]))) []).2
      = 10 ∧
    (chunk_loader (chunked 3 (transformer (extractor [1, 2, 3, 4, 5, 6, 7, 8, 9, 10]))) []).1
      = [("1", 1), ("2", 4), ("3", 9), ("4", 16), ("5", 25),
         ("6", 36), ("7", 49), ("8", 64), ("9", 81), ("10", 100)] := by
  refine ⟨rfl, rfl, rfl, rfl, rfl⟩

/-- C6: for every recursion budget, behaviour pair and path, the traversal of
an empty node yields no events and returns cleanly: the base case of the
depth-first search. -/
theorem empty_node_yields_nothing (fuel : Nat) (fi : GenFun Event)
    (fc : GenFun (List String × Node)) (path : List String) :
    recursive_map_nested_src (fuel + 1) fi fc [] path = ⟨[], none⟩ := by
  rfl

/-- C7: the item producer yields exactly one event per key/value pair whose
value is a scalar and whose classification lookup succeeds; every such pair
contributes the event keyed by the dot-join of path plus key; every emitted
event arises from such a pair, so entries with a failed lookup and
non-scalar values produce no event, and no error is ever raised (the
producer is a total function). -/
theorem gen_items_claim (lookup : String → Option NodeInfo) (render : Value → String)
    (node : Node) (path : List String) :
    ((my_gen_items lookup render node path).length =
      node.countP (fun kv => kv.2.isScalar && (lookup (joinDot (path ++ [kv.1]))).isSome)) ∧
    (∀ (k : String) (v : Value) (info : NodeInfo), (k, v) ∈ node → v.isScalar = true →
      lookup (joinDot (path ++ [k])) = some info →
      (joinDot (path ++ [k]), info.answer_type, render v) ∈
        my_gen_items lookup render node path) ∧
    (∀ ev ∈ my_gen_items lookup render node path,
      ∃ (k : String) (v : Value) (info : NodeInfo), (k, v) ∈ node ∧ v.isScalar = true ∧
        lookup (joinDot (path ++ [k])) = some info ∧
        ev = (joinDot (path ++ [k]), info.answer_type, render v)) :=
  ⟨gen_items_length lookup render node path,
   gen_items_mem_of lookup render node path,
   gen_items_mem lookup render node path⟩

/-- Witness for C7: on the example root, the producer emits exactly the two
events of the qualifying entries a and b, and the event of the entry a is
obtained by discharging the membership, scalarity and lookup hypotheses at
that concrete entry. -/
theorem gen_items_claim_witness :
    ((my_gen_items exLookup exRender exRoot []).length =
      exRoot.countP (fun kv => kv.2.isScalar && (exLookup (joinDot ([] ++ [kv.1]))).isSome)) ∧
    (joinDot ([] ++ ["a"]), (NodeInfo.mk "number").answer_type,
        exRender (Value.scalar (Scalar.int 1))) ∈
      my_gen_items exLookup exRender exRoot [] :=
  ⟨(gen_items_claim exLookup exRender exRoot []).1,
   (gen_items_claim exLookup exRender exRoot []).2.1 "a" (Value.scalar (Scalar.int 1))
     (NodeInfo.mk "number") (List.mem_cons_self _ _) rfl rfl⟩

/-- C8: the restored child producer enumerates children exactly under a
truthy slug together with a non-empty children list: a node missing the slug
key or the children key yields no children and raises nothing, and on the
example parent the children carrying slugs are emitted in order with paths
extended by their slug while the slug-less middle child is skipped. -/
theorem gen_children_claim :
    (∀ (node : Node) (path : List String), nodeGet node "slug" = none →
      my_gen_children node path = []) ∧
    (∀ (node : Node) (path : List String), nodeGet node "children" = none →
      my_gen_children node path = []) ∧
    my_gen_children exParent ["r"] =
      [(["r", "c1"], [("slug", Value.scalar (Scalar.str "c1")),
                      ("y", Value.scalar (Scalar.int 4))]),
       (["r", "c3"], [("slug", Value.scalar (Scalar.str "c3"))])] ∧
    my_gen_children exNoSlug [] = [] ∧
    my_gen_children exNoChildren [] = [] ∧
    my_gen_children exEmptyChildren [] = [] ∧
    my_gen_children exRoot [] = [(["c"], exChild)] := by
  refine ⟨?_, ?_, rfl, rfl, rfl, rfl, rfl⟩
  · intro node path h
    simp [my_gen_children, h, optTruthy]
  · intro node path h
    simp [my_gen_children, h, optTruthy]

/-- Witness for C8: the node that carries a slug but no children key. -/
theorem gen_children_claim_witness :
    nodeGet exNoChildren "children" = none ∧ my_gen_children exNoChildren [] = [] :=
  ⟨rfl, gen_children_claim.2.1 exNoChildren [] rfl⟩

/-- C9: hashing the key of any call that passes the unhashable session as an
argument raises, the error propagates to the caller unswallowed, the cache
state is returned unchanged and the computation is never invoked; freezing
the session by partial application removes it from the cache key (the key is
the remaining idx string alone), and the frozen lookup then runs the
notebook call sequence 1, 2, 2, 1, 1 as miss, miss, hit, hit, hit with
final stats of 3 hits and 2 misses. -/
theorem unhashable_key_contract (c : LruCache (CrankySession × String) Int)
    (k : CrankySession × String) :
    get_or_compute crankyPairHash brokenLookupCompute c k =
      (Outcome.err "RuntimeError: WATCH IT BUDDY! I am not hashable!", c) ∧
    (scs1.1 = Outcome.miss 1 ∧ scs2.1 = Outcome.miss 4 ∧ scs3.1 = Outcome.hit 4 ∧
     scs4.1 = Outcome.hit 1 ∧ scs5.1 = Outcome.hit 1 ∧
     scs5.2.hits = 3 ∧ scs5.2.misses = 2 ∧ scs5.2.calls = 2) := by
  exact ⟨rfl, rfl, rfl, rfl, rfl, rfl, rfl, rfl, rfl⟩

/-- C10: collecting the generator variant does not reproduce the list
variant: at max_n = 10 the generator stops one square early (nine values
instead of the ten the notebook announces), and at max_n = 1 it yields
nothing while the list variant yields one square. -/
theorem squares_generator_off_by_one :
    squares_as_list 10 = [1, 4, 9, 16, 25, 36, 49, 64, 81, 100] ∧
    squares_as_generator 10 = [1, 4, 9, 16, 25, 36, 49, 64, 81] ∧
    squares_as_generator 10 ≠ squares_as_list 10 ∧
    squares_as_generator 1 = [] ∧
    squares_as_list 1 = [1] := by
  have h1 : squares_as_list 10 = [1, 4, 9, 16, 25, 36, 49, 64, 81, 100] := by
    simp [squares_as_list, squaresListFrom]
  have h2 : squares_as_generator 10 = [1, 4, 9, 16, 25, 36, 49, 64, 81] := by
    simp [squares_as_generator, squaresGenFrom]
  have h3 : squares_as_generator 1 = [] := by
    simp [squares_as_generator, squaresGenFrom]
  have h4 : squares_as_list 1 = [1] := by
    simp [squares_as_list, squaresListFrom]
  exact ⟨h1, h2, by rw [h1, h2]; decide, h3, h4⟩

end PyconEtl
